import Mathlib

/-!
Verification of the connection-pool, resultset and wire-codec layers of a
MySQL client library, shallowly embedded from the C++ sources
(`include/boost/mysql/connection_pool.hpp`,
`include/boost/mysql/impl/connection_pool.hpp`,
`include/boost/mysql/resultset_base.hpp`,
`include/boost/mysql/detail/network_algorithms/impl/quit_connection.hpp`
and the protocol codec exercised by `test/unit/protocol/protocol.cpp`).

Machine integers are modelled as `Nat` (with explicit `% 256` and friends
where the C++ type is narrower); `boost::system::error_code` is modelled as
a `Nat` whose zero value is "success", matching the C++ contextual-bool
conversion `if (err)`.

The file is organised as definitions first (the embedding of the source),
then theorems.
-/

/-- Model of `boost::mysql::error_code` (a `boost::system::error_code`):
a plain integer where `0` means success, matching `if (err)` in the source. -/
abbrev error_code := Nat

/-- Model of `boost::asio::error::operation_aborted` (ECANCELED = 125 on
Linux). Only its identity matters: it is nonzero and distinct from success. -/
def operation_aborted : error_code := 125

namespace Pool

/-- Shallow embedding of `pooled_connection_impl::state_t`
(`connection_pool.hpp`, lines 76-82). The source spells idle as `iddle`. -/
inductive state_t where
  | not_connected
  | iddle
  | in_use
  | pending_reset
deriving DecidableEq, Repr

/-- Embedding of a `pooled_connection_impl` record, keeping the fields the
pool algorithms inspect: the lifecycle state and whether the record's
`boost::sam::mutex mtx_` is currently held (`try_lock` fails iff `locked`). -/
structure pooled_connection_impl where
  state : state_t
  locked : Bool
deriving DecidableEq, Repr

/-- A freshly constructed record: `state_{state_t::not_connected}` with its
mutex free (`pooled_connection_impl::pooled_connection_impl`). -/
def new_record : pooled_connection_impl := { state := .not_connected, locked := false }

/-- Embedding of `connection_pool`, keeping the fields the claims are about:
`max_size_` and the record list `conns_`. -/
structure connection_pool where
  max_size : Nat
  conns : List pooled_connection_impl
deriving DecidableEq, Repr

/-- Embedding of the `connection_pool` constructor (`connection_pool.hpp`,
lines 115-132): it stores `max_size` and calls `add_connection()` exactly
`initial_size` times, with no check against `max_size_`. -/
def mk_connection_pool (initial_size max_size : Nat) : connection_pool :=
  { max_size := max_size, conns := List.replicate initial_size new_record }

/-- List update at an index, leaving the list unchanged when out of range
(the shape of the in-place mutations performed through `conns_` iterators). -/
def modifyIdx : List α → Nat → (α → α) → List α
  | [], _, _ => []
  | x :: xs, 0, f => f x :: xs
  | x :: xs, n + 1, f => x :: modifyIdx xs n f

/-- Availability test of the first scan of `find_connection`: the record's
mutex can be try-locked and its state is `iddle` or `pending_reset`. -/
def available_pref (r : pooled_connection_impl) : Bool :=
  !r.locked && (r.state == .iddle || r.state == .pending_reset)

/-- Availability test of the second scan of `find_connection`: the record's
mutex can be try-locked and its state is `not_connected`. -/
def available_nc (r : pooled_connection_impl) : Bool :=
  !r.locked && r.state == .not_connected

/-- Marks a record's mutex as held (a successful `try_lock`, or the
`boost::sam::lock` on a newly created record). -/
def lock_record (r : pooled_connection_impl) : pooled_connection_impl :=
  { r with locked := true }

/-- Embedding of `connection_pool::find_connection` (`connection_pool.hpp`,
lines 161-201): prefer an unlocked `iddle`/`pending_reset` record, then an
unlocked `not_connected` one; otherwise create a new record only if
`conns_.size() < max_size_`, locking whichever record is handed out (the
`lock_guard` is moved to the caller). Returns the index of the record handed
out, if any, and the updated pool. -/
def find_connection (p : connection_pool) : Option Nat × connection_pool :=
  match p.conns.findIdx? available_pref with
  | some i => (some i, { p with conns := modifyIdx p.conns i lock_record })
  | none =>
    match p.conns.findIdx? available_nc with
    | some i => (some i, { p with conns := modifyIdx p.conns i lock_record })
    | none =>
      if p.conns.length < p.max_size then
        (some p.conns.length, { p with conns := p.conns ++ [lock_record new_record] })
      else
        (none, p)

/-- Embedding of `connection_pool::return_connection` (`connection_pool.hpp`,
lines 142-153) on the record at index `i`: `try_lock` the record's mutex
(asserted to succeed), set `state_` to `pending_reset` when `should_reset`
and to `in_use` otherwise (this is what the source writes), release the
mutex when the adopted `lock_guard` leaves scope, and call
`cv_.notify_one()`. The returned `Bool` records that the condition variable
was notified. -/
def return_connection (p : connection_pool) (i : Nat) (should_reset : Bool) :
    connection_pool × Bool :=
  ( { p with
      conns := modifyIdx p.conns i fun r =>
        { r with
          state := if should_reset then .pending_reset else .in_use,
          locked := false } },
    true )

/-- The operations a user can drive the pool through: an acquire
(`async_get_connection` = `find_connection` followed by the setup coroutine,
whose final outcome is `setup_ok`) and a handle return
(`return_connection`, invoked by the `pooled_connection` destructor). -/
inductive PoolOp where
  | acquire (setup_ok : Bool)
  | ret (i : Nat) (should_reset : Bool)

/-- One pool transition. For `acquire`: run `find_connection`; when a record
is handed out, the setup coroutine (`setup_op`, `impl/connection_pool.hpp`)
either completes successfully — `complete_ok` sets the state to `in_use` and
the guard clears the lock — or fails, leaving the record `not_connected`
with the lock cleared. Neither outcome changes the record list's length. -/
def apply_op (p : connection_pool) : PoolOp → connection_pool
  | .acquire ok =>
    match find_connection p with
    | (some i, p1) =>
      { p1 with
        conns := modifyIdx p1.conns i fun r =>
          if ok then { r with state := .in_use, locked := false }
          else { r with state := .not_connected, locked := false } }
    | (none, p1) => p1
  | .ret i should_reset => (return_connection p i should_reset).1

/-- A pool constructed with `initial_size`/`max_size` and driven through a
sequence of acquire/return operations. -/
def run_pool (initial_size max_size : Nat) (ops : List PoolOp) : connection_pool :=
  ops.foldl apply_op (mk_connection_pool initial_size max_size)

end Pool

namespace GetConn

/-- The bounded wait of the pool acquire:
`initiate_wait::wait_timeout = std::chrono::seconds(10)`
(`impl/connection_pool.hpp`, line 44). -/
def wait_timeout_seconds : Nat := 10

/-- Embedding of `initiate_wait::intermediate_handler::operator()`
(`impl/connection_pool.hpp`, lines 82-98): the CV wait (`cv_op`, index 0)
and the 10-second timer (`timer_op`, index 1) are raced with
`make_parallel_group`/`wait_for_one`; the completion handler is invoked
with `ec1` when the CV wait finished first and with `operation_aborted`
when the timer finished first (`ec2` is discarded via `ignore_unused`).
Values of `completion_order0` other than 0/1 cannot occur; they are mapped
to `none` (handler not invoked) by the switch falling through. -/
def intermediate_handler_result (completion_order0 : Nat) (ec1 ec2 : error_code) :
    Option error_code :=
  match completion_order0 with
  | 0 => some ec1
  | 1 => some operation_aborted
  | _ => none

/-- The asynchronous results one iteration of the `get_connection_op` loop
can consume: the pool-mutex lock result, the outcome of
`pool_.find_connection()`, and — depending on that outcome — either the
setup result or the result of `detail::async_wait_for` (which is `0` when
the CV was notified and `operation_aborted` when the 10-second timer won). -/
structure GcIter where
  lockEc : error_code
  found : Option Nat
  setupEc : error_code
  waitEc : error_code
deriving DecidableEq, Repr

/-- Observable outcome of running `get_connection_op` against a finite
sequence of iteration environments. -/
inductive GcResult where
  | completed (ec : error_code) (conn : Option Nat)
  | still_running
deriving DecidableEq, Repr

/-- Embedding of the `get_connection_op::operator()` coroutine loop
(`impl/connection_pool.hpp`, lines 343-384): lock the pool mutex (an error
completes the operation); run `find_connection`; if a record was found, run
setup and complete with its error or with success; otherwise wait on the
condition variable and re-enter the loop. Note that upon resumption after
the wait the loop re-enters WITHOUT examining the wait's error code: the
`err` delivered by `async_wait_for` (including `operation_aborted` from a
timeout) is overwritten by the next `async_lock` and never reaches
`self.complete`. The model therefore ignores `waitEc`, exactly as the
source does. -/
def get_connection_run : List GcIter → GcResult
  | [] => .still_running
  | it :: rest =>
    if it.lockEc ≠ 0 then .completed it.lockEc none
    else
      match it.found with
      | some c =>
        if it.setupEc ≠ 0 then .completed it.setupEc none
        else .completed 0 (some c)
      | none => get_connection_run rest

end GetConn

namespace Handle

/-- Lifecycle events of `pooled_connection` handles (`connection_pool.hpp`,
lines 216-240): `default_ctor` constructs a default handle (`impl_` null);
`move_ctor i` constructs a new handle from the handle in slot `i`
(`impl_(other.impl_)` then `other.impl_ = nullptr`); `move_assign i j`
move-assigns the handle in slot `j` into the one in slot `i`
(`std::swap(impl_, other.impl_)`); `destroy i` runs the destructor of the
handle in slot `i` (`if (impl_) impl_->pool_->return_connection(*impl_)`).
The deleted copy operations have no event. -/
inductive Ev where
  | default_ctor
  | move_ctor (i : Nat)
  | move_assign (i j : Nat)
  | destroy (i : Nat)

/-- A handle slot: `none` means the handle object has been destroyed;
`some v` is a live handle whose `impl_` pointer is `v` (`v = none` models a
null `impl_`, i.e. a default-constructed or moved-from handle; `v = some r`
points at pool record `r`). -/
abbrev Slot := Option (Option Nat)

/-- The observable world: the handle slots, plus the records for which
`return_connection` has been invoked so far, in invocation order. -/
structure World where
  slots : List Slot
  returns : List Nat

/-- One handle lifecycle step, following the member definitions of
`pooled_connection` verbatim; events naming dead or out-of-range slots are
no-ops (such programs do not occur). -/
def step (w : World) : Ev → World
  | .default_ctor => { w with slots := w.slots ++ [some none] }
  | .move_ctor i =>
    match w.slots[i]? with
    | some (some v) => { w with slots := (w.slots.set i (some none)) ++ [some v] }
    | _ => w
  | .move_assign i j =>
    match w.slots[i]?, w.slots[j]? with
    | some (some vi), some (some vj) =>
      { w with slots := (w.slots.set i (some vj)).set j (some vi) }
    | _, _ => w
  | .destroy i =>
    match w.slots[i]? with
    | some (some v) =>
      { slots := w.slots.set i none,
        returns :=
          match v with
          | some r => w.returns ++ [r]
          | none => w.returns }
    | _ => w

/-- A sequence of handle lifecycle events applied to a starting world. -/
def run (evs : List Ev) (w0 : World) : World := evs.foldl step w0

/-- The world right after `get_connection` hands the user one handle that
holds pool record `r`: a single live handle, no returns performed yet. -/
def init_world (r : Nat) : World := { slots := [some (some r)], returns := [] }

/-- Number of live handles whose `impl_` points at pool record `r`. -/
def live_count (r : Nat) (w : World) : Nat :=
  w.slots.countP (fun s => s == some (some r))

end Handle

namespace Setup

/-- Model of an endpoint produced by the resolver
(`boost::asio::ip::tcp::resolver::results_type` entry). -/
abbrev Endpoint := Nat

/-- The asynchronous results available to one iteration of the `setup_op`
retry loop, indexed by the value of `num_tries_` at the start of the
iteration: the resolver outcome, the resolved endpoint list (nonempty
whenever resolution succeeds), the outcome of
`async_connect` (TCP connect + MySQL handshake) as a function of the
endpoint it is invoked on, the `async_ping` outcome, and the backoff-timer
outcome. -/
structure TryEnv where
  resolveEc : error_code
  endpoints : List Endpoint
  connectEc : Endpoint → error_code
  pingEc : error_code
  timerEc : error_code

/-- `setup_op::max_num_tries = 2` (`impl/connection_pool.hpp`, line 179). -/
def max_num_tries : Nat := 2

/-- `setup_op::between_tries = std::chrono::milliseconds(1000)`
(`impl/connection_pool.hpp`, line 180). -/
def between_tries_ms : Nat := 1000

/-- Outcome of the setup coroutine: the completion error code, the record
state at completion, and the endpoints passed to `async_connect`, in call
order. -/
structure SetupResult where
  ec : error_code
  final_state : Pool.state_t
  attempted : List Endpoint
deriving DecidableEq, Repr

/-- Embedding of the `setup_op::operator()` loop (`impl/connection_pool.hpp`,
lines 204-321), which is also the pool's connect algorithm. In the
`not_connected` branch the source resolves and then connects to
`*endpoints.begin()` — the FIRST resolved endpoint only (`headD 0` models
the dereference; asio guarantees a successful resolve yields at least one
endpoint). On failure it increments `num_tries_`, completes when
`num_tries_ >= max_num_tries`, otherwise waits out the backoff timer and
re-enters the loop. `pending_reset` completes immediately (reset is not
implemented); `iddle` pings, and on ping failure closes, rebuilds the
stream, marks the record `not_connected` and retries. `complete_ok` sets the
state to `in_use`. The source asserts `state_ != in_use` on entry, so that
case is unreachable; it is modelled as an immediate return. -/
def setup_go (env : Nat → TryEnv) (st : Pool.state_t) (tries : Nat)
    (acc : List Endpoint) : SetupResult :=
  let t := env tries
  if st = Pool.state_t.not_connected then
    if t.resolveEc ≠ 0 then
      if h : max_num_tries ≤ tries + 1 then ⟨t.resolveEc, st, acc⟩
      else if t.timerEc ≠ 0 then ⟨t.timerEc, st, acc⟩
      else setup_go env st (tries + 1) acc
    else
      let ep := t.endpoints.headD 0
      if t.connectEc ep ≠ 0 then
        if h : max_num_tries ≤ tries + 1 then ⟨t.connectEc ep, st, acc ++ [ep]⟩
        else if t.timerEc ≠ 0 then ⟨t.timerEc, st, acc ++ [ep]⟩
        else setup_go env st (tries + 1) (acc ++ [ep])
      else ⟨0, Pool.state_t.in_use, acc ++ [ep]⟩
  else if st = Pool.state_t.pending_reset then
    ⟨0, Pool.state_t.in_use, acc⟩
  else if st = Pool.state_t.iddle then
    if t.pingEc ≠ 0 then
      if h : max_num_tries ≤ tries + 1 then ⟨t.pingEc, Pool.state_t.not_connected, acc⟩
      else if t.timerEc ≠ 0 then ⟨t.timerEc, Pool.state_t.not_connected, acc⟩
      else setup_go env Pool.state_t.not_connected (tries + 1) acc
    else ⟨0, Pool.state_t.in_use, acc⟩
  else
    ⟨0, st, acc⟩
termination_by max_num_tries - tries
decreasing_by all_goals omega

/-- Entry point `pooled_connection_impl::async_setup`: the loop starts with
`num_tries_ = 0` and no connect attempts made. -/
def async_setup (env : Nat → TryEnv) (st : Pool.state_t) : SetupResult :=
  setup_go env st 0 []

/-- A concrete environment: every resolve yields the two endpoints 1 and 2;
connecting to endpoint 1 fails with ETIMEDOUT (110) while connecting to
endpoint 2 would succeed. -/
def env_two_endpoints : Nat → TryEnv := fun _ =>
  { resolveEc := 0
    endpoints := [1, 2]
    connectEc := fun e => if e = 1 then 110 else 0
    pingEc := 0
    timerEc := 0 }

end Setup

namespace Rs

/-- The OK-summary fields of a server OK packet that `resultset_base`
copies on completion (`detail::ok_packet`): `affected_rows`,
`last_insert_id`, `warnings` and the `info` string. -/
structure ok_packet where
  affected_rows : Nat
  last_insert_id : Nat
  warnings : Nat
  info : String
deriving DecidableEq, Repr

/-- Embedding of `resultset_base::ok_packet_data` (`resultset_base.hpp`,
lines 43-72): a `has_data_` flag plus the copied fields. In C++ the fields
are indeterminate until the first `assign`; the accessors `assert`
`has_data_`, so only the guarded values are observable. -/
structure ok_packet_data where
  has_data : Bool
  affected_rows : Nat
  last_insert_id : Nat
  warnings : Nat
  info : String
deriving DecidableEq, Repr

/-- Member `ok_packet_data::reset()`: drops the data flag only. -/
def ok_packet_data.reset (d : ok_packet_data) : ok_packet_data :=
  { d with has_data := false }

/-- Member `ok_packet_data::assign(pack)`: sets the flag and copies the
packet fields. -/
def ok_packet_data.assign (d : ok_packet_data) (p : ok_packet) : ok_packet_data :=
  { d with
    has_data := true
    affected_rows := p.affected_rows
    last_insert_id := p.last_insert_id
    warnings := p.warnings
    info := p.info }

/-- Member `ok_packet_data::has_value()`. -/
def ok_packet_data.has_value (d : ok_packet_data) : Bool := d.has_data

/-- Accessor `affected_rows()` with its `assert(has_data_)` precondition
modelled as `Option`: a value only when the resultset owns an OK summary. -/
def ok_packet_data.affected_rows_acc (d : ok_packet_data) : Option Nat :=
  if d.has_data then some d.affected_rows else none

/-- Accessor `last_insert_id()` under its `assert(has_data_)` precondition. -/
def ok_packet_data.last_insert_id_acc (d : ok_packet_data) : Option Nat :=
  if d.has_data then some d.last_insert_id else none

/-- Accessor `warning_count()` under its `assert(has_data_)` precondition. -/
def ok_packet_data.warning_count_acc (d : ok_packet_data) : Option Nat :=
  if d.has_data then some d.warnings else none

/-- Accessor `info()` under its `assert(has_data_)` precondition. -/
def ok_packet_data.info_acc (d : ok_packet_data) : Option String :=
  if d.has_data then some d.info else none

/-- `detail::resultset_encoding`. -/
inductive resultset_encoding where
  | text
  | binary
deriving DecidableEq, Repr

/-- Embedding of `resultset_base` (`resultset_base.hpp`, lines 41-175):
`channel_` (a pointer, `none` = null), `seqnum_`, `encoding_`, the stored
column metadata (only its count matters to these claims) and the owned
`ok_packet_data`. -/
structure resultset_base where
  channel : Option Nat
  seqnum : Nat
  encoding : resultset_encoding
  meta_count : Nat
  ok_packet : ok_packet_data
deriving DecidableEq, Repr

/-- A default-constructed `resultset_base`: null channel, no OK data. -/
def default_resultset : resultset_base :=
  { channel := none, seqnum := 0, encoding := .text, meta_count := 0,
    ok_packet := { has_data := false, affected_rows := 0, last_insert_id := 0,
                   warnings := 0, info := "" } }

/-- Member `complete()` (the query, line 133): the resultset has been
completely read iff it owns an OK summary. -/
def resultset_base.complete (r : resultset_base) : Bool := r.ok_packet.has_value

/-- The mutating operations of `resultset_base`: `reset(channel, encoding)`
(lines 87-97, clears meta and the OK data), `complete(ok_pack)` (lines
99-103, assigns the OK data), `prepare_meta(n)` and `add_meta(pack)`. -/
inductive ROp where
  | reset (channel : Option Nat) (enc : resultset_encoding)
  | complete (p : ok_packet)
  | prepare_meta (n : Nat)
  | add_meta

/-- One resultset operation, following the member bodies verbatim. -/
def apply_rop (r : resultset_base) : ROp → resultset_base
  | .reset ch enc =>
    { channel := ch, seqnum := 0, encoding := enc, meta_count := 0,
      ok_packet := r.ok_packet.reset }
  | .complete p => { r with ok_packet := r.ok_packet.assign p }
  | .prepare_meta n => { r with meta_count := n }
  | .add_meta => { r with meta_count := r.meta_count + 1 }

/-- A default-constructed resultset driven through a sequence of
operations. -/
def run_rs (ops : List ROp) : resultset_base :=
  ops.foldl apply_rop default_resultset

/-- Specification-side predicate, from the claim's words: an OK packet "has
been assigned to it (by completing it with a server OK) and not
subsequently cleared (by reset)". -/
def ok_assigned_not_cleared (ops : List ROp) : Bool :=
  ops.foldl
    (fun b op =>
      match op with
      | ROp.complete _ => true
      | ROp.reset _ _ => false
      | _ => b)
    false

end Rs

namespace Quit

/-- Observable behaviour of one run of the asynchronous quit operation:
the sequence of arguments of the `self.complete(...)` invocations made, in
order, and whether the TLS-shutdown step was started. -/
structure QuitRun where
  completions : List error_code
  ssl_shutdown_attempted : Bool
deriving DecidableEq, Repr

/-- Embedding of `quit_connection_op::operator()`
(`network_algorithms/impl/quit_connection.hpp`, lines 30-63), as a function
of the write result and of whether the stream has TLS active (the shutdown
result itself is ignored: the coroutine resumes after the shutdown yield
and completes with `error_code()`). The source calls `self.complete(err)`
when the write failed but does NOT return: control falls through to the
SSL-shutdown step and to the final `self.complete(error_code())`, so a
failed write produces TWO completions. -/
def quit_connection_op (writeEc : error_code) (ssl_active : Bool) : QuitRun :=
  { completions := (if writeEc ≠ 0 then [writeEc] else []) ++ [0]
    ssl_shutdown_attempted := ssl_active }

/-- Embedding of the synchronous variant `quit_connection_impl`
(same file, lines 69-82), which DOES return early on a write error:
the resulting error code and whether the TLS shutdown was attempted. -/
def quit_connection_sync (writeEc : error_code) (ssl_active : Bool) :
    error_code × Bool :=
  if writeEc ≠ 0 then (writeEc, false) else (0, ssl_active)

end Quit

namespace Codec

/-- Little-endian fixed-width integer serialization: the `w` low-order
bytes of `n`, least significant first (spec §4.1, "All integers are
little-endian"). -/
def le_bytes (w n : Nat) : List Nat :=
  match w with
  | 0 => []
  | w1 + 1 => n % 256 :: le_bytes w1 (n / 256)

/-- Modelled from the spec: the frame header (spec §4.2) — the
implementation (`serialize_frame_header`/`deserialize_frame_header`) is not
under `src/`, only its unit tests are. A frame header is 4 bytes: 3-byte
little-endian payload size (0 ≤ S ≤ 0xFFFFFF) then a 1-byte sequence
number. -/
structure frame_header where
  size : Nat
  sequence_number : Nat
deriving DecidableEq, Repr

/-- Modelled from the spec: serialize a frame header to its 4 bytes. -/
def serialize_frame_header (h : frame_header) : List Nat :=
  le_bytes 3 h.size ++ [h.sequence_number % 256]

/-- Modelled from the spec: deserialize exactly 4 bytes to a frame header. -/
def deserialize_frame_header (b : List Nat) : Option frame_header :=
  match b with
  | [b0, b1, b2, b3] => some ⟨b0 + 256 * b1 + 65536 * b2, b3⟩
  | _ => none

/-- Modelled from the spec: the parameter values of an execute-statement
command (spec §3 "Field value" and §4.3 "Execute statement"). Floats are
carried as their IEEE-754 little-endian byte encodings (4 and 8 bytes),
which is all the serializer reads of them; date/datetime/time carry the
broken-down components their packed encodings store. -/
inductive field_value where
  | null
  | uint (v : Nat)
  | int (v : Int)
  | string (bytes : List Nat)
  | blob (bytes : List Nat)
  | float32 (bytes4 : List Nat)
  | float64 (bytes8 : List Nat)
  | date (year month day : Nat)
  | datetime (year month day hour minute second microsecond : Nat)
  | time (negative : Bool) (days hours minutes seconds microseconds : Nat)
deriving DecidableEq, Repr

/-- Modelled from the spec: the 2-byte protocol type code of each field
kind, "with the unsigned flag in the high byte" (spec §4.3); the code
values are the MySQL protocol type constants the unit tests exercise
(LONGLONG 0x08, FLOAT 0x04, DOUBLE 0x05, NULL 0x06, DATE 0x0a, DATETIME
0x0c, TIME 0x0b, VARCHAR-family 0xfe for strings, BLOB 0xfc for blobs),
and the unsigned flag is 0x80. -/
def type_code : field_value → List Nat
  | .null => [0x06, 0x00]
  | .uint _ => [0x08, 0x80]
  | .int _ => [0x08, 0x00]
  | .string _ => [0xfe, 0x00]
  | .blob _ => [0xfc, 0x00]
  | .float32 _ => [0x04, 0x00]
  | .float64 _ => [0x05, 0x00]
  | .date _ _ _ => [0x0a, 0x00]
  | .datetime _ _ _ _ _ _ _ => [0x0c, 0x00]
  | .time _ _ _ _ _ _ => [0x0b, 0x00]

/-- Modelled from the spec: length-encoded integer serialization (spec
§4.1): a value 0x00-0xFA is the literal lead byte; 0xFC prefixes 2 bytes,
0xFD prefixes 3 bytes, 0xFE prefixes 8 bytes. -/
def serialize_lenenc_int (n : Nat) : List Nat :=
  if n ≤ 0xFA then [n]
  else if n < 0x10000 then 0xFC :: le_bytes 2 n
  else if n < 0x1000000 then 0xFD :: le_bytes 3 n
  else 0xFE :: le_bytes 8 n

/-- Whether a parameter is NULL (sets its bit in the NULL bitmap and is
omitted from the value section). -/
def is_null : field_value → Bool
  | .null => true
  | _ => false

/-- Modelled from the spec: the binary value encoding of one non-NULL
parameter (spec §4.3): fixed 8 little-endian bytes for integers (signed
values in two's complement), the raw IEEE bytes for floats, a
length-encoded string for textual/blob values, and the 1-byte
length-prefixed packed temporal encodings (date = 4 bytes y/m/d; datetime =
11 bytes adding h/m/s and 4-byte microseconds; time = 12 bytes: sign,
4-byte day count, h/m/s, 4-byte microseconds). NULL contributes nothing. -/
def value_bytes : field_value → List Nat
  | .null => []
  | .uint v => le_bytes 8 v
  | .int v => le_bytes 8 (v % (2 ^ 64 : Nat)).toNat
  | .string b => serialize_lenenc_int b.length ++ b
  | .blob b => serialize_lenenc_int b.length ++ b
  | .float32 b => b
  | .float64 b => b
  | .date y m d => [4] ++ le_bytes 2 y ++ [m % 256, d % 256]
  | .datetime y mo d h mi s us =>
    [11] ++ le_bytes 2 y ++ [mo % 256, d % 256, h % 256, mi % 256, s % 256] ++ le_bytes 4 us
  | .time neg d h mi s us =>
    [12, if neg then 1 else 0] ++ le_bytes 4 d ++ [h % 256, mi % 256, s % 256] ++ le_bytes 4 us

/-- Modelled from the spec: the NULL bitmap of an execute-statement command
(spec §4.3): ⌈N/8⌉ bytes, bit `i % 8` of byte `i / 8` set iff parameter `i`
is NULL (no offset in this message, unlike binary rows). -/
def null_bitmap (params : List field_value) : List Nat :=
  (List.range ((params.length + 7) / 8)).map fun byteIdx =>
    (List.range 8).foldl
      (fun acc bit =>
        match params[8 * byteIdx + bit]? with
        | some v => if is_null v then acc + 2 ^ bit else acc
        | none => acc)
      0

/-- Modelled from the spec: serialization of the execute-statement command
(spec §4.3) — the implementation (`execute_stmt_command` serialization) is
not under `src/`, only its unit tests are. Marker 0x17, statement id (4
bytes), flags (1 byte, always 0), iteration count (4 bytes, always 1),
then — only if the parameter count is positive — the NULL bitmap, a
new-params-bound byte (always 1), the 2-byte type codes, then the values of
the non-NULL parameters. -/
def serialize_execute_stmt (stmt_id : Nat) (params : List field_value) : List Nat :=
  [0x17] ++ le_bytes 4 stmt_id ++ [0x00] ++ le_bytes 4 1 ++
    (if params.length > 0 then
      null_bitmap params ++ [0x01] ++
        (params.map type_code).flatten ++ (params.map value_bytes).flatten
    else [])

/-- Client-side deserialization error conditions (spec §4.1, §7). -/
inductive DeserializeError where
  | incomplete_message
  | extra_bytes
  | protocol_value_error
deriving DecidableEq, Repr

/-- Decidable equality for `Except`, needed to evaluate deserializer
results on concrete inputs. -/
instance {ε α : Type} [DecidableEq ε] [DecidableEq α] : DecidableEq (Except ε α) :=
  fun a b =>
    match a, b with
    | .error e1, .error e2 =>
      match decEq e1 e2 with
      | isTrue h => isTrue (by rw [h])
      | isFalse h => isFalse (by intro hh; cases hh; exact h rfl)
    | .ok v1, .ok v2 =>
      match decEq v1 v2 with
      | isTrue h => isTrue (by rw [h])
      | isFalse h => isFalse (by intro hh; cases hh; exact h rfl)
    | .error _, .ok _ => isFalse (by intro hh; cases hh)
    | .ok _, .error _ => isFalse (by intro hh; cases hh)

/-- Modelled from the spec: length-encoded integer deserialization (spec
§4.1): lead byte 0x00-0xFA is the literal value, 0xFC means 2 bytes follow,
0xFD means 3, 0xFE means 8; 0xFB/0xFF are reserved in this context
(`protocol_value_error`); running off the end is `incomplete_message`.
Returns the value and the remaining bytes. -/
def deserialize_lenenc_int : List Nat → Except DeserializeError (Nat × List Nat)
  | [] => .error .incomplete_message
  | b :: rest =>
    if b ≤ 0xFA then .ok (b, rest)
    else if b = 0xFC then
      match rest with
      | b0 :: b1 :: r => .ok (b0 + 256 * b1, r)
      | _ => .error .incomplete_message
    else if b = 0xFD then
      match rest with
      | b0 :: b1 :: b2 :: r => .ok (b0 + 256 * b1 + 65536 * b2, r)
      | _ => .error .incomplete_message
    else if b = 0xFE then
      match rest with
      | b0 :: b1 :: b2 :: b3 :: b4 :: b5 :: b6 :: b7 :: r =>
        .ok (b0 + 256 * (b1 + 256 * (b2 + 256 * (b3 + 256 * (b4 + 256 *
          (b5 + 256 * (b6 + 256 * b7)))))), r)
      | _ => .error .incomplete_message
    else .error .protocol_value_error

/-- Fixed 2-byte little-endian integer deserialization. -/
def deserialize_u16 : List Nat → Except DeserializeError (Nat × List Nat)
  | b0 :: b1 :: r => .ok (b0 + 256 * b1, r)
  | _ => .error .incomplete_message

/-- Modelled from the spec: length-encoded string — a lenenc length
followed by that many bytes (spec §4.1). -/
def deserialize_lenenc_str (b : List Nat) :
    Except DeserializeError (List Nat × List Nat) :=
  match deserialize_lenenc_int b with
  | .error e => .error e
  | .ok (n, r) =>
    if n ≤ r.length then .ok (r.take n, r.drop n) else .error .incomplete_message

/-- The view an OK packet deserializes to (spec §3 "Resultset"). -/
structure ok_view where
  affected_rows : Nat
  last_insert_id : Nat
  status_flags : Nat
  warnings : Nat
  info : List Nat
deriving DecidableEq, Repr

/-- Modelled from the spec: OK-packet deserialization (spec §4.3) — the
implementation (`deserialize_ok_packet`) is not under `src/`, only its unit
tests are. Fields: `affected_rows` (lenenc), `last_insert_id` (lenenc),
status flags (2 bytes), warnings (2 bytes), then the info string: absent
(empty) when no bytes remain, otherwise a length-encoded string — the form
the unit tests exercise; bytes left over after it are `extra_bytes`. -/
def deserialize_ok_packet (b : List Nat) : Except DeserializeError ok_view :=
  match deserialize_lenenc_int b with
  | .error e => .error e
  | .ok (ar, r1) =>
    match deserialize_lenenc_int r1 with
    | .error e => .error e
    | .ok (lid, r2) =>
      match deserialize_u16 r2 with
      | .error e => .error e
      | .ok (st, r3) =>
        match deserialize_u16 r3 with
        | .error e => .error e
        | .ok (w, r4) =>
          match r4 with
          | [] => .ok ⟨ar, lid, st, w, []⟩
          | _ =>
            match deserialize_lenenc_str r4 with
            | .error e => .error e
            | .ok (info, r5) =>
              if r5 = [] then .ok ⟨ar, lid, st, w, info⟩
              else .error .extra_bytes

/-- The well-formed OK-packet serialization of the unit tests
("Rows matched: 5  Changed: 4  Warnings: 0", 47 bytes): affected_rows 4,
last_insert_id 0, status 0x0022, warnings 0, then the 40-character info as
a length-encoded string (lenenc length byte 0x28). -/
def ok_example_bytes : List Nat :=
  [0x04, 0x00, 0x22, 0x00, 0x00, 0x00, 0x28, 0x52, 0x6f, 0x77, 0x73, 0x20,
   0x6d, 0x61, 0x74, 0x63, 0x68, 0x65, 0x64, 0x3a, 0x20, 0x35, 0x20, 0x20,
   0x43, 0x68, 0x61, 0x6e, 0x67, 0x65, 0x64, 0x3a, 0x20, 0x34, 0x20, 0x20,
   0x57, 0x61, 0x72, 0x6e, 0x69, 0x6e, 0x67, 0x73, 0x3a, 0x20, 0x30]

end Codec

/-!
Theorems.
-/

namespace Pool

theorem length_modifyIdx (l : List α) (i : Nat) (f : α → α) :
    (modifyIdx l i f).length = l.length := by
  induction l generalizing i with
  | nil => rfl
  | cons x xs ih =>
    cases i with
    | zero => rfl
    | succ n => simp [modifyIdx, ih]

theorem find_connection_max_size (p : connection_pool) :
    (find_connection p).2.max_size = p.max_size := by
  unfold find_connection
  split
  · rfl
  · split
    · rfl
    · split <;> rfl

theorem find_connection_length (p : connection_pool) :
    (find_connection p).2.conns.length = p.conns.length ∨
      ((find_connection p).2.conns.length = p.conns.length + 1 ∧
        p.conns.length < p.max_size) := by
  unfold find_connection
  split
  · left; simp [length_modifyIdx]
  · split
    · left; simp [length_modifyIdx]
    · split
      · right
        constructor
        · simp
        · assumption
      · left; rfl

theorem apply_op_max_size (p : connection_pool) (op : PoolOp) :
    (apply_op p op).max_size = p.max_size := by
  cases op with
  | acquire ok =>
    simp only [apply_op]
    split
    case _ i p1 heq =>
      have h := find_connection_max_size p
      rw [heq] at h
      simpa using h
    case _ p1 heq =>
      have h := find_connection_max_size p
      rw [heq] at h
      simpa using h
  | ret i sr => rfl

theorem apply_op_length_le (p : connection_pool) (op : PoolOp)
    (h : p.conns.length ≤ p.max_size) :
    (apply_op p op).conns.length ≤ p.max_size := by
  cases op with
  | acquire ok =>
    simp only [apply_op]
    split
    case _ i p1 heq =>
      have hl := find_connection_length p
      rw [heq] at hl
      simp only [length_modifyIdx]
      rcases hl with h1 | ⟨h1, h2⟩
      · simpa [h1] using h
      · simp only at h1
        omega
    case _ p1 heq =>
      have hl := find_connection_length p
      rw [heq] at hl
      rcases hl with h1 | ⟨h1, h2⟩
      · simpa [h1] using h
      · simp only at h1
        omega
  | ret i sr =>
    simpa [apply_op, return_connection, length_modifyIdx] using h

theorem foldl_apply_op_max_size (ops : List PoolOp) (p : connection_pool) :
    (ops.foldl apply_op p).max_size = p.max_size := by
  induction ops generalizing p with
  | nil => rfl
  | cons op rest ih =>
    simp only [List.foldl_cons]
    rw [ih, apply_op_max_size]

theorem foldl_apply_op_length_le (ops : List PoolOp) (p : connection_pool)
    (h : p.conns.length ≤ p.max_size) :
    (ops.foldl apply_op p).conns.length ≤ (ops.foldl apply_op p).max_size := by
  induction ops generalizing p with
  | nil => exact h
  | cons op rest ih =>
    simp only [List.foldl_cons]
    apply ih
    rw [apply_op_max_size]
    exact apply_op_length_le p op h

end Pool

/-- C1, counterexample. The claim quantifies over pools "constructed with any
initial_size and max_size"; but the constructor adds `initial_size` records
without any check against `max_size_`, so a pool constructed with
`initial_size = 3, max_size = 2` already owns 3 > 2 records (after the empty
sequence of acquire/return operations). -/
theorem C1_counterexample :
    ¬ ((Pool.run_pool 3 2 []).conns.length ≤ (Pool.run_pool 3 2 []).max_size) := by
  decide

/-- C1, amended: provided `initial_size ≤ max_size`, every state reachable by
acquire/return operations has at most `max_size` records; and, as the claim
states "in particular", `find_connection` grows the record list only when the
current record count is strictly below `max_size` (and then by exactly one). -/
theorem C1_pool_never_exceeds_max_size
    (initial_size max_size : Nat) (ops : List Pool.PoolOp)
    (h : initial_size ≤ max_size) :
    (Pool.run_pool initial_size max_size ops).conns.length ≤ max_size ∧
      (∀ p : Pool.connection_pool,
        (Pool.find_connection p).2.conns.length ≠ p.conns.length →
          p.conns.length < p.max_size ∧
            (Pool.find_connection p).2.conns.length = p.conns.length + 1) := by
  constructor
  · have hinit : (Pool.mk_connection_pool initial_size max_size).conns.length ≤
        (Pool.mk_connection_pool initial_size max_size).max_size := by
      simpa [Pool.mk_connection_pool] using h
    have hfold := Pool.foldl_apply_op_length_le ops _ hinit
    have hmax := Pool.foldl_apply_op_max_size ops (Pool.mk_connection_pool initial_size max_size)
    rw [Pool.run_pool]
    calc (ops.foldl Pool.apply_op (Pool.mk_connection_pool initial_size max_size)).conns.length
        ≤ (ops.foldl Pool.apply_op (Pool.mk_connection_pool initial_size max_size)).max_size :=
          hfold
      _ = max_size := hmax
  · intro p hne
    rcases Pool.find_connection_length p with h1 | ⟨h1, h2⟩
    · exact absurd h1 hne
    · exact ⟨h2, h1⟩

/-- C1, witness: the amended theorem applied at `initial_size = 1`,
`max_size = 2` and a concrete operation sequence that forces the pool to
grow by one record. -/
theorem C1_witness :
    (Pool.run_pool 1 2
        [Pool.PoolOp.acquire true, Pool.PoolOp.acquire true,
          Pool.PoolOp.ret 0 true]).conns.length ≤ 2 ∧
      (∀ p : Pool.connection_pool,
        (Pool.find_connection p).2.conns.length ≠ p.conns.length →
          p.conns.length < p.max_size ∧
            (Pool.find_connection p).2.conns.length = p.conns.length + 1) :=
  C1_pool_never_exceeds_max_size 1 2
    [Pool.PoolOp.acquire true, Pool.PoolOp.acquire true, Pool.PoolOp.ret 0 true]
    (by decide)

/-- C2, counterexample. A run in which the pool mutex is acquired, no record
is available (`found = none`), and the wait ends by timeout (the parallel
timer wins, so `async_wait_for` delivers `operation_aborted`): the operation
does NOT complete with `operation_aborted` — the loop re-enters, and with no
further events it is still running; if the retry then finds a record, the
operation completes successfully. The timeout never surfaces to the caller
of `get_connection`. -/
theorem C2_counterexample :
    GetConn.get_connection_run [⟨0, none, 0, operation_aborted⟩] ≠
        GetConn.GcResult.completed operation_aborted none ∧
      GetConn.get_connection_run [⟨0, none, 0, operation_aborted⟩] =
        GetConn.GcResult.still_running ∧
      GetConn.get_connection_run
          [⟨0, none, 0, operation_aborted⟩, ⟨0, some 0, 0, 0⟩] =
        GetConn.GcResult.completed 0 (some 0) := by
  decide

/-- C2, amended: when `get_connection` finds no available record and the pool
is at `max_size`, it waits on the shared condition variable raced against a
parallel 10-second timer ("first wins"): a timer win is delivered to the
internal wait as `operation_aborted`. On notification or timeout the loop
retries the search — but the wait's error code is discarded, so a timeout
does not surface to the caller of `get_connection` as `operation_aborted`:
every error the operation completes with is a mutex-lock or setup error (or
success). -/
theorem C2_wait_timeout_does_not_surface
    (it : GetConn.GcIter) (rest : List GetConn.GcIter)
    (hlock : it.lockEc = 0) (hfound : it.found = none) :
    GetConn.wait_timeout_seconds = 10 ∧
      (∀ ec1 ec2 : error_code,
        GetConn.intermediate_handler_result 1 ec1 ec2 = some operation_aborted) ∧
      (∀ ec1 ec2 : error_code,
        GetConn.intermediate_handler_result 0 ec1 ec2 = some ec1) ∧
      GetConn.get_connection_run (it :: rest) = GetConn.get_connection_run rest ∧
      (∀ (its : List GetConn.GcIter) (ec : error_code) (c : Option Nat),
        GetConn.get_connection_run its = GetConn.GcResult.completed ec c →
          ec = 0 ∨ ∃ j ∈ its, ec = j.lockEc ∨ ec = j.setupEc) := by
  refine ⟨rfl, fun ec1 ec2 => rfl, fun ec1 ec2 => rfl, ?_, ?_⟩
  · rw [GetConn.get_connection_run.eq_def]
    dsimp only
    rw [hfound, hlock]
    simp
  · intro its
    induction its with
    | nil => intro ec c h; exact absurd h (by simp [GetConn.get_connection_run])
    | cons j rest2 ih =>
      intro ec c h
      rw [GetConn.get_connection_run.eq_def] at h
      dsimp only at h
      by_cases hj : j.lockEc ≠ 0
      · rw [if_pos hj] at h
        right
        exact ⟨j, by simp, Or.inl (by cases h; rfl)⟩
      · rw [if_neg hj] at h
        cases hfj : j.found with
        | some cid =>
          rw [hfj] at h
          dsimp only at h
          by_cases hs : j.setupEc ≠ 0
          · rw [if_pos hs] at h
            right
            exact ⟨j, by simp, Or.inr (by cases h; rfl)⟩
          · rw [if_neg hs] at h
            left
            cases h
            rfl
        | none =>
          rw [hfj] at h
          dsimp only at h
          rcases ih ec c h with h0 | ⟨j2, hj2, hor⟩
          · exact Or.inl h0
          · exact Or.inr ⟨j2, by simp [hj2], hor⟩

/-- C2, witness: the amended theorem applied to a concrete iteration in which
the lock succeeded and no record was found. -/
theorem C2_witness :
    GetConn.wait_timeout_seconds = 10 ∧
      (∀ ec1 ec2 : error_code,
        GetConn.intermediate_handler_result 1 ec1 ec2 = some operation_aborted) ∧
      (∀ ec1 ec2 : error_code,
        GetConn.intermediate_handler_result 0 ec1 ec2 = some ec1) ∧
      GetConn.get_connection_run
          [⟨0, none, 0, operation_aborted⟩, ⟨0, some 0, 0, 0⟩] =
        GetConn.get_connection_run [⟨0, some 0, 0, 0⟩] ∧
      (∀ (its : List GetConn.GcIter) (ec : error_code) (c : Option Nat),
        GetConn.get_connection_run its = GetConn.GcResult.completed ec c →
          ec = 0 ∨ ∃ j ∈ its, ec = j.lockEc ∨ ec = j.setupEc) :=
  C2_wait_timeout_does_not_surface ⟨0, none, 0, operation_aborted⟩
    [⟨0, some 0, 0, 0⟩] rfl rfl

/-- C3: evaluation of `return_connection` at the failing input. A record in
state `in_use` (it was handed out) with its lock free is returned with
`should_reset = false` (the caller asserts the connection is known-clean).
The source (`connection_pool.hpp` line 150,
`conn.state_ = should_reset ? st_t::pending_reset : st_t::in_use`) leaves the
state `in_use`, not `iddle`, so the record can never be found available
again; the lock ends up clear and the condition variable is notified, and
the `should_reset = true` path does set `pending_reset` as the claim
states. -/
theorem C3_return_not_reset_sets_in_use :
    ((Pool.return_connection ⟨1, [⟨Pool.state_t.in_use, false⟩]⟩ 0 false).1.conns.map
        Pool.pooled_connection_impl.state = [Pool.state_t.in_use]) ∧
      Pool.state_t.in_use ≠ Pool.state_t.iddle ∧
      ((Pool.return_connection ⟨1, [⟨Pool.state_t.in_use, false⟩]⟩ 0 false).1.conns.map
        Pool.pooled_connection_impl.locked = [false]) ∧
      ((Pool.return_connection ⟨1, [⟨Pool.state_t.in_use, false⟩]⟩ 0 false).2 = true) ∧
      ((Pool.return_connection ⟨1, [⟨Pool.state_t.in_use, false⟩]⟩ 0 true).1.conns.map
        Pool.pooled_connection_impl.state = [Pool.state_t.pending_reset]) := by
  decide

namespace Handle

theorem countP_set (p : α → Bool) (l : List α) (i : Nat) (x a : α)
    (h : l[i]? = some a) :
    (l.set i x).countP p + (if p a then 1 else 0) =
      l.countP p + (if p x then 1 else 0) := by
  induction l generalizing i with
  | nil => simp at h
  | cons y ys ih =>
    cases i with
    | zero =>
      simp only [List.getElem?_cons_zero, Option.some.injEq] at h
      subst h
      simp only [List.set_cons_zero, List.countP_cons]
      omega
    | succ n =>
      simp only [List.getElem?_cons_succ] at h
      simp only [List.set_cons_succ, List.countP_cons]
      have := ih n h
      omega

theorem countP_set_out (p : α → Bool) (l : List α) (i : Nat) (x : α)
    (h : l[i]? = none) :
    (l.set i x).countP p = l.countP p := by
  rw [List.set_eq_of_length_le]
  rw [List.getElem?_eq_none_iff] at h
  exact h

theorem step_preserves (r : Nat) (w : World) (e : Ev) :
    (step w e).returns.count r + live_count r (step w e) =
      w.returns.count r + live_count r w := by
  cases e with
  | default_ctor =>
    simp [step, live_count, List.countP_append, List.countP_cons]
  | move_ctor i =>
    rcases h : w.slots[i]? with _ | (_ | v)
    · simp [step, h]
    · simp [step, h]
    · have hs := countP_set (fun s => s == some (some r)) w.slots i (some none) (some v) h
      simp only [step, h, live_count, List.countP_append, List.countP_cons,
        List.countP_nil]
      simp at hs ⊢
      omega
  | move_assign i j =>
    rcases hi : w.slots[i]? with _ | (_ | vi)
    · simp [step, hi]
    · simp [step, hi]
    · rcases hj : w.slots[j]? with _ | (_ | vj)
      · simp [step, hi, hj]
      · simp [step, hi, hj]
      · have h1 := countP_set (fun s => s == some (some r)) w.slots i (some vj) (some vi) hi
        by_cases hij : i = j
        · subst hij
          have hvij : vi = vj := by
            rw [hi] at hj
            cases hj
            rfl
          subst hvij
          have hlt : i < w.slots.length := by
            rcases List.getElem?_eq_some_iff.mp hi with ⟨hlt, _⟩
            exact hlt
          have h2 : (w.slots.set i (some vi))[i]? = some (some vi) :=
            List.getElem?_set_eq_of_lt (some vi) (by simpa using hlt)
          have h3 := countP_set (fun s => s == some (some r))
            (w.slots.set i (some vi)) i (some vi) (some vi) h2
          simp only [step, hi, hj, live_count]
          simp at h1 h3 ⊢
          omega
        · have h2 : (w.slots.set i (some vj))[j]? = some (some vj) := by
            rw [List.getElem?_set_ne hij]
            exact hj
          have h3 := countP_set (fun s => s == some (some r))
            (w.slots.set i (some vj)) j (some vi) (some vj) h2
          simp only [step, hi, hj, live_count]
          simp at h1 h3 ⊢
          omega
  | destroy i =>
    rcases h : w.slots[i]? with _ | (_ | v)
    · simp [step, h]
    · simp [step, h]
    · have hs := countP_set (fun s => s == some (some r)) w.slots i none (some v) h
      cases v with
      | none =>
        simp only [step, h, live_count]
        simp at hs ⊢
        omega
      | some rv =>
        simp only [step, h, live_count, List.count_append]
        simp [List.count_cons] at hs ⊢
        omega

theorem run_preserves (r : Nat) (evs : List Ev) (w : World) :
    (run evs w).returns.count r + live_count r (run evs w) =
      w.returns.count r + live_count r w := by
  induction evs generalizing w with
  | nil => rfl
  | cons e rest ih =>
    simp only [run, List.foldl_cons]
    rw [show List.foldl step (step w e) rest = run rest (step w e) from rfl]
    rw [ih (step w e)]
    exact step_preserves r w e

end Handle

/-- C4, confirmed: starting from the single handle that `get_connection`
hands out for record `r`, after any sequence of default constructions, move
constructions, move assignments and destructions, the number of
`return_connection` invocations for `r` plus the number of live handles
still holding `r` is exactly one — so the record is returned at most once,
it is returned exactly once as soon as no live handle holds it any more,
and destroying a default-constructed or moved-from handle (a live slot
whose `impl_` is null) never performs a return. -/
theorem C4_handle_returns_exactly_once (r : Nat) (evs : List Handle.Ev) :
    ((Handle.run evs (Handle.init_world r)).returns.count r +
        Handle.live_count r (Handle.run evs (Handle.init_world r)) = 1) ∧
      ((Handle.run evs (Handle.init_world r)).returns.count r ≤ 1) ∧
      (∀ (w : Handle.World) (i : Nat),
        (Handle.step { w with slots := w.slots.set i (some none) }
            (Handle.Ev.destroy i)).returns = w.returns) := by
  have hinv := Handle.run_preserves r evs (Handle.init_world r)
  have hinit : (Handle.init_world r).returns.count r +
      Handle.live_count r (Handle.init_world r) = 1 := by
    simp [Handle.init_world, Handle.live_count, List.countP_cons]
  refine ⟨by omega, by omega, ?_⟩
  intro w i
  by_cases hlt : i < w.slots.length
  · have h2 : (w.slots.set i (some none))[i]? = some (some none) :=
      List.getElem?_set_eq_of_lt (some none) (by simpa using hlt)
    simp [Handle.step, h2]
  · have h2 : (w.slots.set i (some none))[i]? = none := by
      rw [List.set_eq_of_length_le (by omega)]
      exact List.getElem?_eq_none_iff.mpr (by omega)
    simp [Handle.step, h2]

namespace Setup

theorem setup_go_attempted_last (env : Nat → TryEnv) (st : Pool.state_t)
    (acc : List Endpoint) (e : Endpoint)
    (he : e ∈ (setup_go env st 1 acc).attempted) :
    e ∈ acc ∨ ((env 1).resolveEc = 0 ∧ e = (env 1).endpoints.headD 0) := by
  rw [setup_go.eq_def] at he
  dsimp only at he
  rw [dif_pos (show max_num_tries ≤ 1 + 1 by norm_num [max_num_tries])] at he
  by_cases h1 : st = Pool.state_t.not_connected
  · rw [if_pos h1] at he
    by_cases h2 : (env 1).resolveEc ≠ 0
    · rw [if_pos h2] at he
      exact Or.inl he
    · rw [if_neg h2] at he
      push_neg at h2
      by_cases h3 : (env 1).connectEc ((env 1).endpoints.headD 0) ≠ 0
      · rw [if_pos h3] at he
        rcases List.mem_append.mp he with h | h
        · exact Or.inl h
        · exact Or.inr ⟨h2, List.mem_singleton.mp h⟩
      · rw [if_neg h3] at he
        rcases List.mem_append.mp he with h | h
        · exact Or.inl h
        · exact Or.inr ⟨h2, List.mem_singleton.mp h⟩
  · rw [if_neg h1] at he
    by_cases h2 : st = Pool.state_t.pending_reset
    · rw [if_pos h2] at he
      exact Or.inl he
    · rw [if_neg h2] at he
      by_cases h3 : st = Pool.state_t.iddle
      · rw [if_pos h3] at he
        by_cases h4 : (env 1).pingEc ≠ 0
        · rw [if_pos h4] at he
          exact Or.inl he
        · rw [if_neg h4] at he
          exact Or.inl he
      · rw [if_neg h3] at he
        exact Or.inl he

theorem setup_go_attempted_first (env : Nat → TryEnv) (st : Pool.state_t)
    (acc : List Endpoint) (e : Endpoint)
    (he : e ∈ (setup_go env st 0 acc).attempted) :
    e ∈ acc ∨ ∃ i, i < max_num_tries ∧ (env i).resolveEc = 0 ∧
      e = (env i).endpoints.headD 0 := by
  have hlast : ∀ st2 acc2, e ∈ (setup_go env st2 1 acc2).attempted →
      e ∈ acc2 ∨ ∃ i, i < max_num_tries ∧ (env i).resolveEc = 0 ∧
        e = (env i).endpoints.headD 0 := by
    intro st2 acc2 h
    rcases setup_go_attempted_last env st2 acc2 e h with h | ⟨ha, hb⟩
    · exact Or.inl h
    · exact Or.inr ⟨1, by norm_num [max_num_tries], ha, hb⟩
  rw [setup_go.eq_def] at he
  dsimp only at he
  rw [dif_neg (show ¬ (max_num_tries ≤ 0 + 1) by norm_num [max_num_tries])] at he
  by_cases h1 : st = Pool.state_t.not_connected
  · rw [if_pos h1] at he
    by_cases h2 : (env 0).resolveEc ≠ 0
    · rw [if_pos h2] at he
      by_cases h5 : (env 0).timerEc ≠ 0
      · rw [if_pos h5] at he
        exact Or.inl he
      · rw [if_neg h5] at he
        exact hlast st acc he
    · rw [if_neg h2] at he
      push_neg at h2
      by_cases h3 : (env 0).connectEc ((env 0).endpoints.headD 0) ≠ 0
      · rw [if_pos h3] at he
        by_cases h5 : (env 0).timerEc ≠ 0
        · rw [if_pos h5] at he
          rcases List.mem_append.mp he with h | h
          · exact Or.inl h
          · exact Or.inr ⟨0, by norm_num [max_num_tries], h2, List.mem_singleton.mp h⟩
        · rw [if_neg h5] at he
          rcases hlast st _ he with h | h
          · rcases List.mem_append.mp h with h | h
            · exact Or.inl h
            · exact Or.inr ⟨0, by norm_num [max_num_tries], h2, List.mem_singleton.mp h⟩
          · exact Or.inr h
      · rw [if_neg h3] at he
        rcases List.mem_append.mp he with h | h
        · exact Or.inl h
        · exact Or.inr ⟨0, by norm_num [max_num_tries], h2, List.mem_singleton.mp h⟩
  · rw [if_neg h1] at he
    by_cases h2 : st = Pool.state_t.pending_reset
    · rw [if_pos h2] at he
      exact Or.inl he
    · rw [if_neg h2] at he
      by_cases h3 : st = Pool.state_t.iddle
      · rw [if_pos h3] at he
        by_cases h4 : (env 0).pingEc ≠ 0
        · rw [if_pos h4] at he
          by_cases h5 : (env 0).timerEc ≠ 0
          · rw [if_pos h5] at he
            exact Or.inl he
          · rw [if_neg h5] at he
            exact hlast Pool.state_t.not_connected acc he
        · rw [if_neg h4] at he
          exact Or.inl he
      · rw [if_neg h3] at he
        exact Or.inl he

end Setup

/-- C5, counterexample. An environment in which resolution yields the two
endpoints 1 and 2, connecting to endpoint 1 fails (ETIMEDOUT) and connecting
to endpoint 2 would succeed: the setup coroutine attempts endpoint 1 twice
— once per retry — never attempts endpoint 2, and completes with the
connect error. The claim says a later endpoint is attempted whenever
connecting to an earlier one fails; the code only ever dereferences
`endpoints.begin()`. -/
theorem C5_counterexample :
    Setup.async_setup Setup.env_two_endpoints Pool.state_t.not_connected =
        ⟨110, Pool.state_t.not_connected, [1, 1]⟩ ∧
      2 ∉ (Setup.async_setup Setup.env_two_endpoints
        Pool.state_t.not_connected).attempted ∧
      (Setup.env_two_endpoints 0).connectEc 2 = 0 ∧
      2 ∈ (Setup.env_two_endpoints 0).endpoints := by
  have h : Setup.async_setup Setup.env_two_endpoints Pool.state_t.not_connected =
      ⟨110, Pool.state_t.not_connected, [1, 1]⟩ := by
    rw [Setup.async_setup, Setup.setup_go.eq_def]
    norm_num [Setup.env_two_endpoints, Setup.max_num_tries]
    rw [Setup.setup_go.eq_def]
    norm_num [Setup.env_two_endpoints, Setup.max_num_tries]
  refine ⟨h, ?_, by norm_num [Setup.env_two_endpoints], by norm_num [Setup.env_two_endpoints]⟩
  rw [h]
  decide

/-- C5, amended: the connect algorithm of the pool's setup coroutine
resolves `(host, port)` and then attempts TCP connect + handshake against
the FIRST resolved endpoint only; on failure it retries the whole
resolve-then-connect-to-first sequence (up to `max_num_tries`, with
backoff), so every endpoint ever passed to `async_connect` is the first
endpoint of a successful resolution — endpoints after the first are never
attempted. -/
theorem C5_connect_only_first_endpoint
    (env : Nat → Setup.TryEnv) (st : Pool.state_t) (e : Setup.Endpoint)
    (he : e ∈ (Setup.async_setup env st).attempted) :
    ∃ i, i < Setup.max_num_tries ∧ (env i).resolveEc = 0 ∧
      e = (env i).endpoints.headD 0 := by
  rcases Setup.setup_go_attempted_first env st [] e he with h | h
  · cases h
  · exact h

/-- C5, witness: the amended theorem applied to the concrete environment of
the counterexample, at the attempted endpoint 1. -/
theorem C5_witness :
    ∃ i, i < Setup.max_num_tries ∧ (Setup.env_two_endpoints i).resolveEc = 0 ∧
      1 = (Setup.env_two_endpoints i).endpoints.headD 0 :=
  C5_connect_only_first_endpoint Setup.env_two_endpoints Pool.state_t.not_connected 1
    (by
      have h : Setup.async_setup Setup.env_two_endpoints Pool.state_t.not_connected =
          ⟨110, Pool.state_t.not_connected, [1, 1]⟩ := by
        rw [Setup.async_setup, Setup.setup_go.eq_def]
        norm_num [Setup.env_two_endpoints, Setup.max_num_tries]
        rw [Setup.setup_go.eq_def]
        norm_num [Setup.env_two_endpoints, Setup.max_num_tries]
      rw [h]
      decide)

namespace Rs

theorem run_has_data (ops : List ROp) (r0 : resultset_base) :
    (ops.foldl apply_rop r0).ok_packet.has_data =
      ops.foldl
        (fun b op =>
          match op with
          | ROp.complete _ => true
          | ROp.reset _ _ => false
          | _ => b)
        r0.ok_packet.has_data := by
  induction ops generalizing r0 with
  | nil => rfl
  | cons op rest ih =>
    simp only [List.foldl_cons]
    rw [ih]
    congr 1
    cases op <;> rfl

end Rs

/-- C6, confirmed: a resultset is complete iff it owns an OK summary. For
every operation sequence on a (default-constructed) resultset,
`complete()` returns true exactly when an OK packet has been assigned by
`complete(ok_pack)` and not subsequently cleared by `reset`; and each
OK-summary accessor (`affected_rows`, `last_insert_id`, `warning_count`,
`info`) yields a value exactly under that precondition (the source asserts
`has_data_`). -/
theorem C6_complete_iff_owns_ok_summary (ops : List Rs.ROp) :
    ((Rs.run_rs ops).complete = Rs.ok_assigned_not_cleared ops) ∧
      ((Rs.run_rs ops).ok_packet.affected_rows_acc.isSome = (Rs.run_rs ops).complete) ∧
      ((Rs.run_rs ops).ok_packet.last_insert_id_acc.isSome = (Rs.run_rs ops).complete) ∧
      ((Rs.run_rs ops).ok_packet.warning_count_acc.isSome = (Rs.run_rs ops).complete) ∧
      ((Rs.run_rs ops).ok_packet.info_acc.isSome = (Rs.run_rs ops).complete) := by
  have hmain : (Rs.run_rs ops).complete = Rs.ok_assigned_not_cleared ops := by
    rw [Rs.run_rs, Rs.ok_assigned_not_cleared]
    rw [Rs.resultset_base.complete, Rs.ok_packet_data.has_value]
    exact Rs.run_has_data ops Rs.default_resultset
  refine ⟨hmain, ?_, ?_, ?_, ?_⟩ <;>
    (cases h : (Rs.run_rs ops).ok_packet.has_data <;>
      simp [Rs.ok_packet_data.affected_rows_acc, Rs.ok_packet_data.last_insert_id_acc,
        Rs.ok_packet_data.warning_count_acc, Rs.ok_packet_data.info_acc,
        Rs.resultset_base.complete, Rs.ok_packet_data.has_value, h])

/-- C10: evaluation of the asynchronous quit operation at the failing input.
When writing the quit message fails (here with EPIPE = 32) on a plain TCP
stream, the completion handler is invoked TWICE — once with the write error
and once more with success after the missing early return lets control fall
through — and when TLS is active the operation even proceeds to the
TLS-shutdown step after having completed. On a successful write the handler
is invoked exactly once, and the synchronous variant `quit_connection_impl`
returns early on the same failing input, confirming the intent. -/
theorem C10_quit_completes_twice_on_write_error :
    (Quit.quit_connection_op 32 false).completions = [32, 0] ∧
      (Quit.quit_connection_op 32 false).completions.length ≠ 1 ∧
      (Quit.quit_connection_op 32 true).ssl_shutdown_attempted = true ∧
      (Quit.quit_connection_op 0 false).completions = [0] ∧
      Quit.quit_connection_sync 32 true = (32, false) := by
  decide

/-- C7, confirmed (spec-modelled): serializing an execute-statement command
with stmt_id = 1 and the single parameter u64(0x00ABFFFFABACADAE) produces
exactly the bytes 17 01 00 00 00 00 01 00 00 00 00 01 08 80 AE AD AC AB FF
FF AB 00, and the high byte of the 2-byte type code carries the unsigned
flag 0x80. -/
theorem C7_execute_uint64_serialization :
    Codec.serialize_execute_stmt 1 [Codec.field_value.uint 0x00ABFFFFABACADAE] =
        [0x17, 0x01, 0x00, 0x00, 0x00, 0x00, 0x01, 0x00, 0x00, 0x00, 0x00,
         0x01, 0x08, 0x80, 0xae, 0xad, 0xac, 0xab, 0xff, 0xff, 0xab, 0x00] ∧
      (Codec.type_code (Codec.field_value.uint 0x00ABFFFFABACADAE)).getD 1 0 = 0x80 := by
  decide

/-- C8, confirmed (spec-modelled): the frame header (size = 0xCACBCC,
sequence_number = 0xFA) serializes to the bytes CC CB CA FA, those bytes
deserialize back to the same pair, and in general for every frame header
with size ≤ 0xFFFFFF (and a sequence number in the range of its `uint8_t`
type), deserialization inverts serialization. -/
theorem C8_frame_header_round_trip (h : Codec.frame_header)
    (hsize : h.size ≤ 0xFFFFFF) (hseq : h.sequence_number < 256) :
    Codec.serialize_frame_header ⟨0xCACBCC, 0xFA⟩ = [0xCC, 0xCB, 0xCA, 0xFA] ∧
      Codec.deserialize_frame_header [0xCC, 0xCB, 0xCA, 0xFA] =
        some ⟨0xCACBCC, 0xFA⟩ ∧
      Codec.deserialize_frame_header (Codec.serialize_frame_header h) = some h := by
  refine ⟨by decide, by decide, ?_⟩
  cases h with
  | mk s q =>
    simp only [Codec.serialize_frame_header, Codec.le_bytes, List.cons_append,
      List.nil_append, Codec.deserialize_frame_header]
    simp only [Option.some.injEq, Codec.frame_header.mk.injEq]
    have hs2 : s ≤ 0xFFFFFF := hsize
    have hq2 : q < 256 := hseq
    constructor
    · omega
    · omega

/-- C8, witness: the round trip applied at the concrete header of the unit
test, (size = 0xCACBCC, seq = 0xFA). -/
theorem C8_witness :
    Codec.serialize_frame_header ⟨0xCACBCC, 0xFA⟩ = [0xCC, 0xCB, 0xCA, 0xFA] ∧
      Codec.deserialize_frame_header [0xCC, 0xCB, 0xCA, 0xFA] =
        some ⟨0xCACBCC, 0xFA⟩ ∧
      Codec.deserialize_frame_header
          (Codec.serialize_frame_header ⟨0xCACBCC, 0xFA⟩) =
        some ⟨0xCACBCC, 0xFA⟩ :=
  C8_frame_header_round_trip ⟨0xCACBCC, 0xFA⟩ (by decide) (by decide)

/-- C9, counterexample (spec-modelled): the 47-byte OK-packet serialization
of the unit tests is well formed — it deserializes successfully with
affected_rows 4 and the 40-byte info string — yet its truncation to the
6-byte prefix (a truncation by 41 trailing bytes) does NOT return
`incomplete_message`: it parses as a complete OK packet with an empty info
string, because the info field is optional. So "every truncation of a
well-formed serialization by at least one trailing byte returns
incomplete_message" fails. -/
theorem C9_counterexample :
    Codec.deserialize_ok_packet Codec.ok_example_bytes =
        Except.ok ⟨4, 0, 0x22, 0, Codec.ok_example_bytes.drop 7⟩ ∧
      Codec.deserialize_ok_packet (Codec.ok_example_bytes.take 6) =
        Except.ok ⟨4, 0, 0x22, 0, []⟩ ∧
      Codec.deserialize_ok_packet (Codec.ok_example_bytes.take 6) ≠
        Except.error Codec.DeserializeError.incomplete_message := by
  decide

/-- C9, amended (spec-modelled): for the well-formed OK-packet
serialization, every truncation by at least one trailing byte returns
`incomplete_message` EXCEPT the one that removes the entire info field
(keeping exactly the 6-byte fixed prefix), which parses as a complete OK
with empty info. -/
theorem C9_truncation_incomplete_except_info_boundary :
    ∀ n < 47, n ≠ 6 →
      Codec.deserialize_ok_packet (Codec.ok_example_bytes.take n) =
        Except.error Codec.DeserializeError.incomplete_message := by
  decide

/-- C9, witness: the amended theorem applied at the truncation keeping 20
bytes. -/
theorem C9_witness :
    Codec.deserialize_ok_packet (Codec.ok_example_bytes.take 20) =
      Except.error Codec.DeserializeError.incomplete_message :=
  C9_truncation_incomplete_except_info_boundary 20 (by decide) (by decide)
